import Mathlib

/-!
Verification development for the typed-fsm repository.

The engine (src/unnamed/part_001, mirrored by src/src/fsm.ts) is shallowly
embedded below: state registries, message descriptors, behavior tables, the
dispatch algorithm of sendFactory, instance construction, and the observable
adapter.  Lifecycle callbacks and console diagnostics are modelled as events
in an explicit trace; reference identity of behavior entries is modelled by a
numeric id field; the module-global message-id counter is threaded
explicitly.  Bodies of onEnter lifecycle functions are embedded as a list of
synchronous nested sends followed by the returned hook record, so that the
re-entrant dispatch paths of the source are representable; a generalized
variant of the dispatcher additionally gives transition handlers and the
onUpdate/onExit callbacks their own synchronous nested sends, since in the
source all of them can reach self, and the residency discipline is settled
against that variant.
-/

namespace TypedFSM

/-- Hook record returned by an onEnter lifecycle call: which of the optional
onUpdate and onExit callbacks are present (source: type Hooks).  Callback
bodies are effect-free here; the generalized RHooksSpec below also embeds
the synchronous send() calls a callback body may perform. -/
structure HooksSpec where
  onUpdate : Bool
  onExit : Bool
  deriving DecidableEq, Repr

/-- The hook set owned by a running instance: the id of the behavior entry
whose onEnter produced it, plus presence of the two callbacks. -/
structure HooksInst where
  owner : Nat
  onUpdate : Bool
  onExit : Bool
  deriving DecidableEq, Repr

/-- Embedded body of an onEnter lifecycle function: the synchronous nested
send calls it performs (message id and payload, in order), then the hook
record it returns (none models a void return). -/
structure OnEnterBody (P : Type) where
  nestedSends : List (Nat × P)
  ret : Option HooksSpec

/-- A behavior entry (source: one value of the BehaviorMap): reference
identity is modelled by the id field; handling maps message names to
transition functions, with the wildcard stored under the key "_" exactly as
in the source.  Transition bodies are pure here; the generalized
RBehaviorEntry below also embeds the synchronous send() calls a handler may
perform through self. -/
structure BehaviorEntry (V P : Type) where
  id : Nat
  onEnter : Option (V → OnEnterBody P)
  handling : List (String × (V → P → V))

/-- The data of an FSMDescription: declared states in declaration order
(name, membership predicate), behavior entries keyed by state name, and the
message map (name, descriptor id).  The behaviors stage of the builder only
stores its argument (part_001 lines 228-233): no validation happens, which
is why this constructor is total. -/
structure Desc (V P : Type) where
  states : List (String × (V → Bool))
  behaviors : List (String × BehaviorEntry V P)
  messages : List (String × Nat)

/-- Mutable state owned by one FSMInstance: current value and current hooks. -/
structure MState (V : Type) where
  value : V
  hooks : Option HooksInst
  deriving DecidableEq, Repr

/-- Observable events of a dispatch: committed values (stateSet), lifecycle
callback invocations, and console.warn diagnostics of the unhandled-message
path (the first warn carries the formatted (state, message) text, the second
the debug object holding the message key and the raw value). -/
inductive Ev (V : Type) where
  | commit (v : V)
  | enter (entry : Nat) (v : V)
  | update (owner : Nat) (prev : V) (next : V)
  | exitHook (owner : Nat) (v : V)
  | warnNoTransition (stateKey : String) (messageKey : String)
  | warnDebug (messageKey : String) (v : V)
  deriving DecidableEq, Repr

/-- Fatal dispatch conditions: the two throw sites of sendFactory, plus the
fuel marker of the embedding (never produced by the modelled code paths that
the theorems below are about). -/
inductive Err where
  | noMatchingState
  | noMatchingMessage
  | fuelOut
  deriving DecidableEq, Repr

/-- Result of running dispatch code: final instance state, event trace, and
the raised error if any (mutations made before a throw persist). -/
structure SendRes (V : Type) where
  st : MState V
  tr : List (Ev V)
  err : Option Err
  deriving DecidableEq, Repr

/-- Association lookup in a JS object literal (unique keys, insertion order). -/
def lookupA {α : Type} : List (String × α) → String → Option α
  | [], _ => none
  | (k, a) :: rest, key => if k == key then some a else lookupA rest key

/-- findStateKey (part_001 lines 262-272): scan the declared states in
declaration order and return the first name whose predicate accepts the
value. -/
def findStateKey {V : Type} : List (String × (V → Bool)) → V → Option String
  | [], _ => none
  | (key, pred) :: rest, v => if pred v then some key else findStateKey rest v

/-- findStateBehavior (part_001 lines 275-280): resolve the value to a state
key, then look its behavior entry up. -/
def findStateBehavior {V P : Type} (states : List (String × (V → Bool)))
    (behaviors : List (String × BehaviorEntry V P)) (v : V) :
    Option (BehaviorEntry V P) :=
  match findStateKey states v with
  | none => none
  | some key => lookupA behaviors key

/-- The reverse message map built by the FSMDescription constructor
(part_001 lines 256-260): ids map to names; a later binding of the same id
overwrites an earlier one, hence the scan of the reversed list. -/
def reverseMessageMap (messages : List (String × Nat)) (mid : Nat) : Option String :=
  (List.find? (fun m => m.2 == mid) messages.reverse).map Prod.fst

/-- The unhandled-message diagnostic text (source: noTransition). -/
def noTransition (state : String) (message : String) : String :=
  s!"No transition encoded for ({state}, {message}), message ignored"

/-- Builds the hook set installed by the dispatch path
hookSet(newHook or empty): a void onEnter return installs an empty hook
record, owned by the entered entry. -/
def mkHooksInst (eid : Nat) : Option HooksSpec → HooksInst
  | some s => ⟨eid, s.onUpdate, s.onExit⟩
  | none => ⟨eid, false, false⟩

/-- The JS short-circuit a or-else b on possibly-absent lookups. -/
def orElseO {α : Type} : Option α → Option α → Option α
  | some a, _ => some a
  | none, b => b

/-- One send(descriptor, payload) call of sendFactory (part_001 lines
287-351), with the recursive execution of nested sends abstracted as the
nested parameter.  This embedding covers machines whose transition handlers
and onUpdate/onExit callbacks perform no re-entrant sends (rSendPure below
lifts that restriction); for them every code path of the source is
reproduced, in particular: the commit (stateSet) happens before any hook
fires, the hook set is read after the commit (so nested sends observe the
stale hook set of the state being left), and on a residency change the
outer frame stores the onEnter return value only after the whole onEnter
body - nested sends included - has completed. -/
def sendPure {V P : Type} (d : Desc V P)
    (nested : List (Nat × P) → MState V → SendRes V)
    (mid : Nat) (pl : P) (st : MState V) : SendRes V :=
  match findStateKey d.states st.value with
  | none => ⟨st, [], some Err.noMatchingState⟩
  | some stateKey =>
    match lookupA d.behaviors stateKey with
    | none => ⟨st, [], some Err.noMatchingState⟩
    | some stateBehavior =>
      match reverseMessageMap d.messages mid with
      | none => ⟨st, [], some Err.noMatchingMessage⟩
      | some messageKey =>
        match orElseO (lookupA stateBehavior.handling messageKey)
              (lookupA stateBehavior.handling "_") with
        | none =>
          ⟨st, [Ev.warnNoTransition stateKey messageKey,
                Ev.warnDebug messageKey st.value], none⟩
        | some transition =>
          let newState := transition st.value pl
          match findStateBehavior d.states d.behaviors newState with
          | none => ⟨st, [], some Err.noMatchingState⟩
          | some newStateBehavior =>
            let st1 : MState V := ⟨newState, st.hooks⟩
            if newStateBehavior.id == stateBehavior.id then
              match st.hooks with
              | some h =>
                if h.onUpdate then
                  ⟨st1, [Ev.commit newState, Ev.update h.owner st.value newState], none⟩
                else ⟨st1, [Ev.commit newState], none⟩
              | none => ⟨st1, [Ev.commit newState], none⟩
            else
              let exitTr : List (Ev V) :=
                match st.hooks with
                | some h => if h.onExit then [Ev.exitHook h.owner st.value] else []
                | none => []
              match newStateBehavior.onEnter with
              | some bodyF =>
                let body := bodyF newState
                let rn := nested body.nestedSends st1
                match rn.err with
                | some e =>
                  ⟨rn.st, Ev.commit newState :: exitTr ++
                    Ev.enter newStateBehavior.id newState :: rn.tr, some e⟩
                | none =>
                  ⟨⟨rn.st.value, some (mkHooksInst newStateBehavior.id body.ret)⟩,
                    Ev.commit newState :: exitTr ++
                    Ev.enter newStateBehavior.id newState :: rn.tr, none⟩
              | none => ⟨⟨newState, none⟩, Ev.commit newState :: exitTr, none⟩

/-- The dispatch algorithm run on a list of send calls.  Each element is one
send(descriptor, payload) call; a raised error aborts the remaining calls.
Nested sends performed by an onEnter body recurse with one unit of fuel
less (the fuel is a bound of the embedding, not of the source; all theorems
below are about runs that do not exhaust it). -/
def doSends {V P : Type} (d : Desc V P) : Nat → List (Nat × P) → MState V → SendRes V
  | _, [], st => ⟨st, [], none⟩
  | 0, _ :: _, st => ⟨st, [], some Err.fuelOut⟩
  | Nat.succ fuel, (mid, pl) :: rest, st =>
    let r := sendPure d (doSends d fuel) mid pl st
    match r.err with
    | some e => ⟨r.st, r.tr, some e⟩
    | none =>
      let r2 := doSends d fuel rest r.st
      ⟨r2.st, r.tr ++ r2.tr, r2.err⟩

/-- FSMInstance construction (part_001 lines 398-423): the value is stored,
and if the initial value resolves to an entry declaring onEnter, that
lifecycle runs immediately (the one onEnter without a preceding transition);
its raw return value - void included - is then stored as the hook set,
after any nested sends the body performed. -/
def mkInstance {V P : Type} (d : Desc V P) (fuel : Nat) (v0 : V) : SendRes V :=
  match findStateBehavior d.states d.behaviors v0 with
  | none => ⟨⟨v0, none⟩, [], none⟩
  | some b =>
    match b.onEnter with
    | none => ⟨⟨v0, none⟩, [], none⟩
    | some bodyF =>
      let body := bodyF v0
      let rn := doSends d fuel body.nestedSends ⟨v0, none⟩
      match rn.err with
      | some e => ⟨rn.st, Ev.enter b.id v0 :: rn.tr, some e⟩
      | none =>
        ⟨⟨rn.st.value, body.ret.map (fun s => ⟨b.id, s.onUpdate, s.onExit⟩)⟩,
          Ev.enter b.id v0 :: rn.tr, none⟩

/-- Create an instance from a description and run a list of top-level send
calls on it. -/
def runMachine {V P : Type} (d : Desc V P) (fuel : Nat) (v0 : V)
    (msgs : List (Nat × P)) : SendRes V :=
  let c := mkInstance d fuel v0
  match c.err with
  | some e => ⟨c.st, c.tr, some e⟩
  | none =>
    let r := doSends d fuel msgs c.st
    ⟨r.st, c.tr ++ r.tr, r.err⟩

/-- Lifecycle-callback events of a trace (enter, update, exit), without the
commit markers and console diagnostics. -/
def isHookEv {V : Type} : Ev V → Bool
  | .enter _ _ => true
  | .update _ _ _ => true
  | .exitHook _ _ => true
  | _ => false

/-- Restrict a trace to lifecycle-callback events. -/
def hookEvs {V : Type} (tr : List (Ev V)) : List (Ev V) :=
  tr.filter isHookEv

/-- The sequence of committed values (stateSet calls) of a trace. -/
def commitsOf {V : Type} (tr : List (Ev V)) : List V :=
  tr.filterMap fun e =>
    match e with
    | .commit v => some v
    | _ => none

/-- Recognizes the unhandled-message diagnostic that carries both the state
name and the message name. -/
def isNoTransitionWarn {V : Type} : Ev V → Bool
  | .warnNoTransition _ _ => true
  | _ => false

/-- Recognizes an onExit invocation of the hook set owned by a given entry. -/
def isExitOf {V : Type} (owner : Nat) : Ev V → Bool
  | .exitHook o _ => o == owner
  | _ => false

/-- State of the specification-side residency walk: last committed value,
the id of the behavior entry it resolves to (the current residency), and
which callbacks the hook set installed at the start of the run declares. -/
structure RunSt (V : Type) where
  v : V
  eid : Nat
  hasUpd : Bool
  hasExit : Bool

/-- Specification-side state resolution, following the spec's words: the
first registered name whose predicate accepts the value (spec section 4.1),
to be compared with findStateKey. -/
def specResolveFirst {V : Type} (states : List (String × (V → Bool))) (v : V) :
    Option String :=
  (states.find? fun s => s.2 v).map Prod.fst

/-- A message descriptor (source: FSMMessage / _InternalMessage): the
uniquely allocated numeric id stamped on it by FSMMessage.create. -/
structure MessageDescriptor where
  mid : Nat
  deriving DecidableEq, Repr

/-- A message instance (source: _InternalMessageInstance): the descriptor's
id plus the payload. -/
structure MessageInst (T : Type) where
  mid : Nat
  value : T
  deriving DecidableEq, Repr

/-- FSMMessage.create (part_001 lines 58-67) with the module-global mutable
counter (let messageId = 1) threaded explicitly: reads the counter as the
new descriptor's id and increments it. -/
def messageCreate (counter : Nat) : MessageDescriptor × Nat :=
  (⟨counter⟩, counter + 1)

/-- The descriptor returned by the k-th FSMMessage.create call (0-based) in
a sequence of calls beginning at the given counter value. -/
def allocNth (counter : Nat) : Nat → MessageDescriptor
  | 0 => (messageCreate counter).1
  | k + 1 => allocNth (messageCreate counter).2 k

/-- Invoking a descriptor on a payload (source: (value: T) => ({ _id,
value })): the instance is stamped with the descriptor's id. -/
def stampMessage {T : Type} (m : MessageDescriptor) (t : T) : MessageInst T :=
  ⟨m.mid, t⟩

/-- The followers map of an InternalObserver after a sequence of onValue
subscriptions: each subscription takes the next callback id (this.cbId++)
and stores the listener under it. -/
def obsFollowers : Nat → List Nat → List (Nat × Nat)
  | _, [] => []
  | cb, t :: rest => (cb, t) :: obsFollowers (cb + 1) rest

/-- InternalObserver.next (part_001 lines 439-441): push one value to every
follower of this observer; a delivery is (listener tag, value). -/
def observerNext {V : Type} (followers : List (Nat × Nat)) (v : V) : List (Nat × V) :=
  followers.map fun f => (f.2, v)

/-- The observable create path (part_001 lines 471-494) followed by a list
of top-level sends: a fresh InternalObserver is allocated for this one
instance, the observable hook subscribes its listeners, the initial value is
pushed to them, and afterwards every committed value of the wrapped
stateSet is pushed to the same followers.  Returns the final machine state,
the full delivery list of this instance's observer, and the error if any. -/
def obsRun {V P : Type} (d : Desc V P) (fuel : Nat) (hookSubs : List Nat)
    (v0 : V) (msgs : List (Nat × P)) :
    MState V × List (Nat × V) × Option Err :=
  let followers := obsFollowers 0 hookSubs
  let r := runMachine d fuel v0 msgs
  (r.st, observerNext followers v0 ++ (commitsOf r.tr).flatMap (observerNext followers), r.err)

/-- Re-entrant hook record of the generalized embedding: each optional
callback carries the synchronous send() calls its body performs when
invoked - onUpdate as a function of (previous, current), onExit as a
function of the exited value.  In the source both callbacks close over self
(spec section 4.4) and may dispatch further messages. -/
structure RHooksSpec (V P : Type) where
  onUpdate : Option (V → V → List (Nat × P))
  onExit : Option (V → List (Nat × P))

/-- The hook set owned by a running instance in the generalized embedding:
owner entry id plus the two optional re-entrant callbacks. -/
structure RHooksInst (V P : Type) where
  owner : Nat
  onUpdate : Option (V → V → List (Nat × P))
  onExit : Option (V → List (Nat × P))

/-- Body of an onEnter lifecycle in the generalized embedding: its
synchronous nested sends, then the returned hook record (none models a void
return). -/
structure ROnEnterBody (V P : Type) where
  nestedSends : List (Nat × P)
  ret : Option (RHooksSpec V P)

/-- Body of a transition handler in the generalized embedding: the
synchronous send() calls the handler performs through self, then the value
it returns. -/
structure RTransBody (V P : Type) where
  sends : List (Nat × P)
  result : V

/-- A behavior entry of the generalized embedding: identity id, optional
onEnter lifecycle, and handlers whose bodies may send re-entrantly; the
wildcard is stored under the key "_" exactly as in the source. -/
structure RBehaviorEntry (V P : Type) where
  id : Nat
  onEnter : Option (V → ROnEnterBody V P)
  handling : List (String × (V → P → RTransBody V P))

/-- An FSMDescription over re-entrant behavior entries. -/
structure RDesc (V P : Type) where
  states : List (String × (V → Bool))
  behaviors : List (String × RBehaviorEntry V P)
  messages : List (String × Nat)

/-- Mutable state of one instance in the generalized embedding. -/
structure RMState (V P : Type) where
  value : V
  hooks : Option (RHooksInst V P)

/-- Result of running dispatch code in the generalized embedding. -/
structure RSendRes (V P : Type) where
  st : RMState V P
  tr : List (Ev V)
  err : Option Err

/-- findStateBehavior over a re-entrant description. -/
def rFindStateBehavior {V P : Type} (d : RDesc V P) (v : V) :
    Option (RBehaviorEntry V P) :=
  match findStateKey d.states v with
  | none => none
  | some key => lookupA d.behaviors key

/-- The hook set installed by the dispatch path hookSet(newHook or empty)
in the generalized embedding. -/
def rMkHooksInst {V P : Type} (eid : Nat) : Option (RHooksSpec V P) → RHooksInst V P
  | some s => ⟨eid, s.onUpdate, s.onExit⟩
  | none => ⟨eid, none, none⟩

/-- The enter half of a residency change (part_001 lines 341-349): call
onEnter with the committed value if declared - running its nested sends
from the current machine state - then store its return through
hookSet(newHook or empty); with no onEnter the hook set is cleared and the
value is whatever the machine currently holds. -/
def rEnterPhase {V P : Type} (nested : List (Nat × P) → RMState V P → RSendRes V P)
    (eid : Nat) (oe : Option (V → ROnEnterBody V P)) (newState : V)
    (stx : RMState V P) : RSendRes V P :=
  match oe with
  | some bodyF =>
    let body := bodyF newState
    let rn := nested body.nestedSends stx
    match rn.err with
    | some e => ⟨rn.st, Ev.enter eid newState :: rn.tr, some e⟩
    | none =>
      ⟨⟨rn.st.value, some (rMkHooksInst eid body.ret)⟩,
        Ev.enter eid newState :: rn.tr, none⟩
  | none => ⟨⟨stx.value, none⟩, [], none⟩

/-- One send(descriptor, payload) call of sendFactory (part_001 lines
287-351) in the generalized embedding, where the transition handler and the
onUpdate/onExit callbacks run their own synchronous nested sends.  The
source order is kept exactly: the handler body runs (its sends first, its
value computed from the entry-time state), the new value resolves, the
commit (stateSet) happens, the hook set is read after the commit - so it
reflects mutations made by the handler's own sends, and nested frames see
the stale hook set of the state being left - then onUpdate fires on
unchanged residency, or onExit then the enter phase fire on a residency
change; state captured at entry (state, stateBehavior) is what the
comparisons and callback arguments use. -/
def rSendPure {V P : Type} (d : RDesc V P)
    (nested : List (Nat × P) → RMState V P → RSendRes V P)
    (mid : Nat) (pl : P) (st : RMState V P) : RSendRes V P :=
  match findStateKey d.states st.value with
  | none => ⟨st, [], some Err.noMatchingState⟩
  | some stateKey =>
    match lookupA d.behaviors stateKey with
    | none => ⟨st, [], some Err.noMatchingState⟩
    | some stateBehavior =>
      match reverseMessageMap d.messages mid with
      | none => ⟨st, [], some Err.noMatchingMessage⟩
      | some messageKey =>
        match orElseO (lookupA stateBehavior.handling messageKey)
              (lookupA stateBehavior.handling "_") with
        | none =>
          ⟨st, [Ev.warnNoTransition stateKey messageKey,
                Ev.warnDebug messageKey st.value], none⟩
        | some transition =>
          let tb := transition st.value pl
          let rt := nested tb.sends st
          match rt.err with
          | some e => ⟨rt.st, rt.tr, some e⟩
          | none =>
            let newState := tb.result
            match rFindStateBehavior d newState with
            | none => ⟨rt.st, rt.tr, some Err.noMatchingState⟩
            | some newStateBehavior =>
              let st1 : RMState V P := ⟨newState, rt.st.hooks⟩
              if newStateBehavior.id == stateBehavior.id then
                match st1.hooks with
                | some h =>
                  match h.onUpdate with
                  | some cb =>
                    let ru := nested (cb st.value newState) st1
                    ⟨ru.st, rt.tr ++ Ev.commit newState ::
                      Ev.update h.owner st.value newState :: ru.tr, ru.err⟩
                  | none => ⟨st1, rt.tr ++ [Ev.commit newState], none⟩
                | none => ⟨st1, rt.tr ++ [Ev.commit newState], none⟩
              else
                match st1.hooks with
                | some h =>
                  match h.onExit with
                  | some cb =>
                    let rx := nested (cb st.value) st1
                    match rx.err with
                    | some e =>
                      ⟨rx.st, rt.tr ++ Ev.commit newState ::
                        Ev.exitHook h.owner st.value :: rx.tr, some e⟩
                    | none =>
                      let re := rEnterPhase nested newStateBehavior.id
                        newStateBehavior.onEnter newState rx.st
                      ⟨re.st, rt.tr ++ Ev.commit newState ::
                        Ev.exitHook h.owner st.value :: (rx.tr ++ re.tr), re.err⟩
                  | none =>
                    let re := rEnterPhase nested newStateBehavior.id
                      newStateBehavior.onEnter newState st1
                    ⟨re.st, rt.tr ++ Ev.commit newState :: re.tr, re.err⟩
                | none =>
                  let re := rEnterPhase nested newStateBehavior.id
                    newStateBehavior.onEnter newState st1
                  ⟨re.st, rt.tr ++ Ev.commit newState :: re.tr, re.err⟩

/-- The generalized dispatch run on a list of send calls, with the same
fuel discipline as doSends. -/
def rDoSends {V P : Type} (d : RDesc V P) :
    Nat → List (Nat × P) → RMState V P → RSendRes V P
  | _, [], st => ⟨st, [], none⟩
  | 0, _ :: _, st => ⟨st, [], some Err.fuelOut⟩
  | Nat.succ fuel, (mid, pl) :: rest, st =>
    let r := rSendPure d (rDoSends d fuel) mid pl st
    match r.err with
    | some e => ⟨r.st, r.tr, some e⟩
    | none =>
      let r2 := rDoSends d fuel rest r.st
      ⟨r2.st, r.tr ++ r2.tr, r2.err⟩

/-- FSMInstance construction (part_001 lines 398-423) in the generalized
embedding: the raw onEnter return - void included - is stored as the hook
set after any nested sends the body performed. -/
def rMkInstance {V P : Type} (d : RDesc V P) (fuel : Nat) (v0 : V) : RSendRes V P :=
  match rFindStateBehavior d v0 with
  | none => ⟨⟨v0, none⟩, [], none⟩
  | some b =>
    match b.onEnter with
    | none => ⟨⟨v0, none⟩, [], none⟩
    | some bodyF =>
      let body := bodyF v0
      let rn := rDoSends d fuel body.nestedSends ⟨v0, none⟩
      match rn.err with
      | some e => ⟨rn.st, Ev.enter b.id v0 :: rn.tr, some e⟩
      | none =>
        ⟨⟨rn.st.value, body.ret.map fun s => ⟨b.id, s.onUpdate, s.onExit⟩⟩,
          Ev.enter b.id v0 :: rn.tr, none⟩

/-- Create an instance of a re-entrant description and run a list of
top-level send calls on it. -/
def rRunMachine {V P : Type} (d : RDesc V P) (fuel : Nat) (v0 : V)
    (msgs : List (Nat × P)) : RSendRes V P :=
  let c := rMkInstance d fuel v0
  match c.err with
  | some e => ⟨c.st, c.tr, some e⟩
  | none =>
    let r := rDoSends d fuel msgs c.st
    ⟨r.st, c.tr ++ r.tr, r.err⟩

/-- The effect set of a re-entrant entry's onEnter at a given entered
value: the empty body when no onEnter lifecycle is declared. -/
def rEntryBody {V P : Type} (e : RBehaviorEntry V P) (v : V) : ROnEnterBody V P :=
  match e.onEnter with
  | some bodyF => bodyF v
  | none => ⟨[], none⟩

/-- Callback presence of the hook set a run installs on entry: absent
onEnter or a void return install nothing that can fire. -/
def rEntryFlags {V P : Type} (e : RBehaviorEntry V P) (w : V) : Bool × Bool :=
  match (rEntryBody e w).ret with
  | none => (false, false)
  | some s => (s.onUpdate.isSome, s.onExit.isSome)

/-- Which callbacks the instance's stored hook set can fire: an absent hook
set fires nothing. -/
def rHookFlags {V P : Type} : Option (RHooksInst V P) → Bool × Bool
  | none => (false, false)
  | some h => (h.onUpdate.isSome, h.onExit.isSome)

/-- Specification-side residency discipline (spec section 8) over a
re-entrant description, one commit at a time: a commit resolving to the
current run's entry fires onUpdate (if declared) and nothing else; a commit
resolving to a different entry ends the run - onExit of the run's hook set
fires (if declared), then onEnter of the new entry (if declared), strictly
in that order - and a new run begins with the new entry's hook set.
Defined purely from the committed value and the entry table, never from
messages, handlers or dispatch order. -/
def rResidencyStep {V P : Type} (d : RDesc V P) (r : RunSt V) (w : V) :
    RunSt V × List (Ev V) :=
  match rFindStateBehavior d w with
  | none => (r, [])
  | some e =>
    if e.id == r.eid then
      (⟨w, r.eid, r.hasUpd, r.hasExit⟩,
       if r.hasUpd then [Ev.update r.eid r.v w] else [])
    else
      (⟨w, e.id, (rEntryFlags e w).1, (rEntryFlags e w).2⟩,
       (if r.hasExit then [Ev.exitHook r.eid r.v] else []) ++
       (if e.onEnter.isSome then [Ev.enter e.id w] else []))

/-- The residency walk over a whole commit sequence. -/
def rResidencyFold {V P : Type} (d : RDesc V P) :
    RunSt V → List V → RunSt V × List (Ev V)
  | r, [] => (r, [])
  | r, w :: ws =>
    let s1 := rResidencyStep d r w
    let s2 := rResidencyFold d s1.1 ws
    (s2.1, s1.2 ++ s2.2)

/-- The full lifecycle trace the specification predicts from the initial
value and the commit sequence: the run begun by the initial value at
construction fires onEnter once (when declared), then each commit follows
the residency discipline. -/
def rResidencyTrace {V P : Type} (d : RDesc V P) (v0 : V) (commits : List V) :
    List (Ev V) :=
  match rFindStateBehavior d v0 with
  | none => []
  | some e0 =>
    (if e0.onEnter.isSome then [Ev.enter e0.id v0] else []) ++
    (rResidencyFold d ⟨v0, e0.id, (rEntryFlags e0 v0).1, (rEntryFlags e0 v0).2⟩
      commits).2

/-- A hook record whose callbacks, when present, perform no re-entrant
sends whatever arguments they receive. -/
def cbNoSends {V P : Type} : Option (RHooksSpec V P) → Prop
  | none => True
  | some s =>
    (∀ cb, s.onUpdate = some cb → ∀ a b, cb a b = []) ∧
    (∀ cb, s.onExit = some cb → ∀ a, cb a = [])

/-- A stored hook set whose callbacks perform no re-entrant sends. -/
def instNoSends {V P : Type} (h : RHooksInst V P) : Prop :=
  (∀ cb, h.onUpdate = some cb → ∀ a b, cb a b = []) ∧
  (∀ cb, h.onExit = some cb → ∀ a, cb a = [])

/-- A re-entrant description is nest-free when nothing in it sends
re-entrantly: no onEnter body performs nested sends, no transition handler
body sends, and no hook record returned by an onEnter carries a callback
that sends.  The residency-counting discipline is stated for such
machines. -/
def RNoNest {V P : Type} (d : RDesc V P) : Prop :=
  ∀ p ∈ d.behaviors,
    (∀ v : V, (rEntryBody p.2 v).nestedSends = []) ∧
    (∀ s ∈ p.2.handling, ∀ (v : V) (pl : P), (s.2 v pl).sends = []) ∧
    (∀ v : V, cbNoSends (rEntryBody p.2 v).ret)

/-- Relation between the implementation state of an instance and the
specification-side residency state: same current value, the value resolves
to an entry carrying the run's id, and the stored hook set can fire exactly
the callbacks the run's flags declare, is owned by the run's entry, and
carries no sending callbacks. -/
structure RResInv {V P : Type} (d : RDesc V P) (st : RMState V P) (r : RunSt V) :
    Prop where
  hv : st.value = r.v
  he : ∃ e, rFindStateBehavior d st.value = some e ∧ e.id = r.eid
  hf : rHookFlags st.hooks = (r.hasUpd, r.hasExit)
  ho : ∀ h, st.hooks = some h → h.owner = r.eid
  hn : ∀ h, st.hooks = some h → instNoSends h

/-- Concrete value type of the video-player example (spec section 8,
mirrored by the test suite): idle, playing(time), paused(time). -/
inductive VP where
  | idle
  | playing (t : Nat)
  | paused (t : Nat)
  deriving DecidableEq, Repr

/-- Type guard of the idle state. -/
def isIdle : VP → Bool
  | .idle => true
  | _ => false

/-- Type guard of the playing state. -/
def isPlaying : VP → Bool
  | .playing _ => true
  | _ => false

/-- Type guard of the paused state. -/
def isPaused : VP → Bool
  | .paused _ => true
  | _ => false

/-- The video-player description of the end-to-end example (spec section
8): play from idle yields playing(0), seek(t) from playing yields
playing(t), pause from playing(t) yields paused(t), play from paused yields
playing(0).  Message ids as allocated by four successive FSMMessage.create
calls. -/
def dVideo : Desc VP Nat :=
  { states := [("idle", isIdle), ("paused", isPaused), ("playing", isPlaying)],
    behaviors :=
      [("idle",
        { id := 1, onEnter := none,
          handling := [("play", fun _ _ => VP.playing 0)] }),
       ("paused",
        { id := 2, onEnter := none,
          handling := [("play", fun _ _ => VP.playing 0)] }),
       ("playing",
        { id := 3, onEnter := none,
          handling := [("seek", fun _ t => VP.playing t),
                       ("pause", fun v _ =>
                          match v with
                          | VP.playing t => VP.paused t
                          | w => w)] })],
    messages := [("play", 1), ("stop", 2), ("pause", 3), ("seek", 4)] }

/-- A three-state value type for the re-entrancy machines. -/
inductive V3 where
  | va
  | vb
  | vc
  deriving DecidableEq, Repr

/-- Type guard of state a. -/
def isVa : V3 → Bool
  | .va => true
  | _ => false

/-- Type guard of state b. -/
def isVb : V3 → Bool
  | .vb => true
  | _ => false

/-- Type guard of state c. -/
def isVc : V3 → Bool
  | .vc => true
  | _ => false

/-- Machine for the nested-send hook claim: message m1 moves a to b; b's
onEnter synchronously sends m2, which moves b to c and installs c's hooks
(no onUpdate, onExit); after the nested send completes, b's onEnter returns
its own hook record (onUpdate, no onExit). -/
def dNest : Desc V3 Unit :=
  { states := [("a", isVa), ("b", isVb), ("c", isVc)],
    behaviors :=
      [("a",
        { id := 1, onEnter := none,
          handling := [("m1", fun _ _ => V3.vb)] }),
       ("b",
        { id := 2,
          onEnter := some fun _ => { nestedSends := [(2, ())], ret := some ⟨true, false⟩ },
          handling := [("m2", fun _ _ => V3.vc)] }),
       ("c",
        { id := 3,
          onEnter := some fun _ => { nestedSends := [], ret := some ⟨false, true⟩ },
          handling := [] })],
    messages := [("m1", 1), ("m2", 2)] }

/-- Machine whose only transition produces a value no declared state
recognizes: the single declared state accepts va only, yet m1 yields vb. -/
def dBad : Desc V3 Unit :=
  { states := [("a", isVa)],
    behaviors :=
      [("a",
        { id := 1, onEnter := none,
          handling := [("m1", fun _ _ => V3.vb)] })],
    messages := [("m1", 1)] }

/-- The video-player description whose behaviors map covers only 2 of the 3
declared states (playing is missing), exactly the construction-validation
scenario of spec section 8. -/
def dIncomplete : Desc VP Nat :=
  { states := [("idle", isIdle), ("paused", isPaused), ("playing", isPlaying)],
    behaviors :=
      [("idle",
        { id := 1, onEnter := none,
          handling := [("play", fun _ _ => VP.playing 0)] }),
       ("paused",
        { id := 2, onEnter := none,
          handling := [("play", fun _ _ => VP.playing 0)] })],
    messages := [("play", 1), ("stop", 2), ("pause", 3), ("seek", 4)] }

/-- Two-state machine whose predicates both accept every value, for the
declaration-order resolution property: a message handled by both entries
must dispatch through the earlier-declared x. -/
def dOverlap : Desc Nat Unit :=
  { states := [("x", fun _ => true), ("y", fun _ => true)],
    behaviors :=
      [("x",
        { id := 1, onEnter := none,
          handling := [("m1", fun v _ => v + 1)] }),
       ("y",
        { id := 2, onEnter := none,
          handling := [("m1", fun v _ => v + 2)] })],
    messages := [("m1", 1)] }


/-- The hooked video player in the re-entrant embedding: the playing entry
installs onUpdate and onExit callbacks that perform no sends, and nothing
in the machine sends re-entrantly. -/
def dVideoHooksR : RDesc VP Nat :=
  { states := [("idle", isIdle), ("paused", isPaused), ("playing", isPlaying)],
    behaviors :=
      [("idle",
        { id := 1, onEnter := none,
          handling := [("play", fun _ _ => ⟨[], VP.playing 0⟩)] }),
       ("paused",
        { id := 2, onEnter := none,
          handling := [("play", fun _ _ => ⟨[], VP.playing 0⟩)] }),
       ("playing",
        { id := 3,
          onEnter := some fun _ =>
            { nestedSends := [],
              ret := some ⟨some fun _ _ => [], some fun _ => []⟩ },
          handling := [("seek", fun _ t => ⟨[], VP.playing t⟩),
                       ("pause", fun v _ =>
                          ⟨[], match v with
                               | VP.playing t => VP.paused t
                               | w => w⟩)] })],
    messages := [("play", 1), ("stop", 2), ("pause", 3), ("seek", 4)] }

/-- Residency counterexample machine (a): b's onEnter nested-sends m2 while
a's stale hook set is still current, so a's onExit fires again on the b to
c transition and b's own onExit never fires. -/
def dResR : RDesc V3 Unit :=
  { states := [("a", isVa), ("b", isVb), ("c", isVc)],
    behaviors :=
      [("a",
        { id := 1,
          onEnter := some fun _ =>
            { nestedSends := [], ret := some ⟨none, some fun _ => []⟩ },
          handling := [("m1", fun _ _ => ⟨[], V3.vb⟩)] }),
       ("b",
        { id := 2,
          onEnter := some fun _ =>
            { nestedSends := [(2, ())], ret := some ⟨none, some fun _ => []⟩ },
          handling := [("m2", fun _ _ => ⟨[], V3.vc⟩)] }),
       ("c",
        { id := 3, onEnter := none, handling := [] })],
    messages := [("m1", 1), ("m2", 2)] }

/-- Residency counterexample machine (b): no onEnter performs nested sends;
instead the onExit callback a's onEnter installs sends m2 when invoked, so
the a to b dispatch re-enters the machine from inside onExit and a's stale
onExit fires again on the nested b to c transition. -/
def dResExitR : RDesc V3 Unit :=
  { states := [("a", isVa), ("b", isVb), ("c", isVc)],
    behaviors :=
      [("a",
        { id := 1,
          onEnter := some fun _ =>
            { nestedSends := [], ret := some ⟨none, some fun _ => [(2, ())]⟩ },
          handling := [("m1", fun _ _ => ⟨[], V3.vb⟩)] }),
       ("b",
        { id := 2, onEnter := none,
          handling := [("m2", fun _ _ => ⟨[], V3.vc⟩)] }),
       ("c",
        { id := 3, onEnter := none, handling := [] })],
    messages := [("m1", 1), ("m2", 2)] }

/-- Residency counterexample machine (c): the m1 transition handler of a
itself sends m2 through self before returning vb; the nested dispatch
already enters b, and the outer frame - whose residency comparison still
uses the entry captured at call time - enters b a second time although both
commits land on the same entry. -/
def dResTransR : RDesc V3 Unit :=
  { states := [("a", isVa), ("b", isVb), ("c", isVc)],
    behaviors :=
      [("a",
        { id := 1, onEnter := none,
          handling := [("m1", fun _ _ => ⟨[(2, ())], V3.vb⟩),
                       ("m2", fun _ _ => ⟨[], V3.vb⟩)] }),
       ("b",
        { id := 2,
          onEnter := some fun _ => { nestedSends := [], ret := some ⟨none, none⟩ },
          handling := [] }),
       ("c",
        { id := 3, onEnter := none, handling := [] })],
    messages := [("m1", 1), ("m2", 2)] }

theorem doSends_nil {V P : Type} (d : Desc V P) (fuel : Nat) (st : MState V) :
    doSends d fuel [] st = ⟨st, [], none⟩ := by
  cases fuel <;> rfl

theorem lookupA_mem {α : Type} {l : List (String × α)} {k : String} {a : α}
    (h : lookupA l k = some a) : (k, a) ∈ l := by
  induction l with
  | nil => simp [lookupA] at h
  | cons p rest ih =>
    obtain ⟨k0, a0⟩ := p
    by_cases hk : k0 = k
    · subst hk
      simp [lookupA] at h
      subst h
      exact List.mem_cons_self _ _
    · rw [lookupA, if_neg (by simpa using hk)] at h
      exact List.mem_cons_of_mem _ (ih h)

theorem findStateKey_eq_specResolveFirst {V : Type}
    (states : List (String × (V → Bool))) (v : V) :
    findStateKey states v = specResolveFirst states v := by
  induction states with
  | nil => rfl
  | cons s rest ih =>
    obtain ⟨k, p⟩ := s
    by_cases hp : p v
    · simp [findStateKey, specResolveFirst, List.find?_cons, hp]
    · simp only [findStateKey, specResolveFirst, List.find?_cons] at *
      simp only [hp, if_false, Bool.false_eq_true] at *
      exact ih

theorem findStateKey_append_first {V : Type} (v : V)
    (pre : List (String × (V → Bool))) (k1 : String) (p1 : V → Bool)
    (tail : List (String × (V → Bool)))
    (hpre : ∀ s ∈ pre, s.2 v = false) (h1 : p1 v = true) :
    findStateKey (pre ++ (k1, p1) :: tail) v = some k1 := by
  induction pre with
  | nil => simp [findStateKey, h1]
  | cons s rest ih =>
    obtain ⟨k, p⟩ := s
    have hs : p v = false := hpre (k, p) (List.mem_cons_self _ _)
    rw [List.cons_append, findStateKey, hs]
    simp only [Bool.false_eq_true, if_false]
    exact ih fun s hsm => hpre s (List.mem_cons_of_mem _ hsm)

/-- C7: state resolution scans the declared states in declaration order and
returns the first name whose predicate accepts the value (findStateKey
agrees everywhere with the specification's first-match reading); when an
earlier-declared predicate accepts the value, dispatch resolves the
behavior entry of that earlier state, whatever later predicates accept. -/
theorem c7_first_match {V P : Type}
    (behaviors : List (String × BehaviorEntry V P)) (v : V)
    (pre : List (String × (V → Bool))) (k1 : String) (p1 : V → Bool)
    (rest : List (String × (V → Bool))) (k2 : String) (p2 : V → Bool)
    (post : List (String × (V → Bool)))
    (hpre : ∀ s ∈ pre, s.2 v = false) (h1 : p1 v = true) :
    findStateKey (pre ++ (k1, p1) :: (rest ++ (k2, p2) :: post)) v
      = specResolveFirst (pre ++ (k1, p1) :: (rest ++ (k2, p2) :: post)) v ∧
    findStateKey (pre ++ (k1, p1) :: (rest ++ (k2, p2) :: post)) v = some k1 ∧
    findStateBehavior (pre ++ (k1, p1) :: (rest ++ (k2, p2) :: post)) behaviors v
      = lookupA behaviors k1 := by
  have hfk : findStateKey (pre ++ (k1, p1) :: (rest ++ (k2, p2) :: post)) v = some k1 :=
    findStateKey_append_first v pre k1 p1 (rest ++ (k2, p2) :: post) hpre h1
  refine ⟨findStateKey_eq_specResolveFirst _ v, hfk, ?_⟩
  rw [findStateBehavior, hfk]

/-- Witness for C7 at the two-state overlap machine: both predicates accept
the value 0, and resolution dispatches through the earlier-declared x
entry. -/
theorem c7_first_match_witness :
    findStateKey dOverlap.states 0 = some "x" ∧
    findStateBehavior dOverlap.states dOverlap.behaviors 0
      = lookupA dOverlap.behaviors "x" :=
  ⟨(c7_first_match (P := Unit) dOverlap.behaviors 0 [] "x" (fun _ => true) []
      "y" (fun _ => true) [] (by intro s hs; cases hs) rfl).2.1,
   (c7_first_match dOverlap.behaviors 0 [] "x" (fun _ => true) []
      "y" (fun _ => true) [] (by intro s hs; cases hs) rfl).2.2⟩

/-- C6: on the video-player description, the message sequence play, seek(1),
seek(2), pause, play leaves the instance value at playing(0), with no error
raised. -/
theorem c6_video_player_sequence :
    (runMachine dVideo 10 VP.idle [(1, 0), (4, 1), (4, 2), (3, 0), (1, 0)]).st.value
      = VP.playing 0 ∧
    (runMachine dVideo 10 VP.idle [(1, 0), (4, 1), (4, 2), (3, 0), (1, 0)]).err
      = none := by
  decide

theorem allocNth_mid (c k : Nat) : (allocNth c k).mid = c + k := by
  induction k generalizing c with
  | zero => rfl
  | succ n ih =>
    rw [allocNth, ih]
    simp [messageCreate]
    omega

/-- C9: in any sequence of FSMMessage.create calls, the identifier of the
k-th descriptor is the counter value plus k - determined once at creation
and never changed - distinct create calls yield distinct identifiers, and
invoking a descriptor on a payload stamps exactly that descriptor's
identifier onto the message instance. -/
theorem c9_message_ids {T : Type} (c i j : Nat) (t : T) (hij : i ≠ j) :
    (allocNth c i).mid = c + i ∧
    (allocNth c i).mid ≠ (allocNth c j).mid ∧
    (stampMessage (allocNth c i) t).mid = (allocNth c i).mid := by
  refine ⟨allocNth_mid c i, ?_, rfl⟩
  rw [allocNth_mid, allocNth_mid]
  omega

/-- Witness for C9: the first two descriptors allocated from the source's
counter start value 1 carry ids 1 and 2. -/
theorem c9_message_ids_witness :
    (allocNth 1 0).mid = 1 + 0 ∧
    (allocNth 1 0).mid ≠ (allocNth 1 1).mid ∧
    (stampMessage (allocNth 1 0) 7).mid = (allocNth 1 0).mid :=
  c9_message_ids 1 0 1 7 (by decide)

/-- C10: when the initial-state factory's value resolves to no declared
state, instance construction still succeeds - no error, no onEnter, no
stored hooks - and the unresolved-state fatal error is raised by the first
send() call, which leaves the state untouched. -/
theorem c10_deferred_unresolved {V P : Type} (d : Desc V P) (fuel mid : Nat)
    (pl : P) (v : V) (h : findStateKey d.states v = none) :
    mkInstance d fuel v = ⟨⟨v, none⟩, [], none⟩ ∧
    doSends d (fuel + 1) [(mid, pl)] ⟨v, none⟩
      = ⟨⟨v, none⟩, [], some Err.noMatchingState⟩ := by
  constructor
  · rw [mkInstance, findStateBehavior, h]
  · rw [doSends, sendPure, h]

/-- Witness for C10 at the single-state machine: the value vb resolves to no
state; construction succeeds and the first send raises. -/
theorem c10_deferred_unresolved_witness :
    mkInstance dBad 1 V3.vb = ⟨⟨V3.vb, none⟩, [], none⟩ ∧
    doSends dBad 2 [(1, ())] ⟨V3.vb, none⟩
      = ⟨⟨V3.vb, none⟩, [], some Err.noMatchingState⟩ :=
  c10_deferred_unresolved dBad 1 1 () V3.vb rfl

/-- C4: a send whose current state's entry declares neither a named handler
for the message nor a wildcard returns normally with the value and hook set
untouched; the trace consists of the two console.warn calls of the source -
of which exactly one, the noTransition text, carries both the state name
and the message name - and no lifecycle callback fires. -/
theorem c4_unhandled_message {V P : Type} (d : Desc V P) (fuel mid : Nat)
    (pl : P) (st : MState V) (sk mk : String) (e : BehaviorEntry V P)
    (hsk : findStateKey d.states st.value = some sk)
    (he : lookupA d.behaviors sk = some e)
    (hmk : reverseMessageMap d.messages mid = some mk)
    (hh : lookupA e.handling mk = none)
    (hw : lookupA e.handling "_" = none) :
    doSends d (fuel + 1) [(mid, pl)] st
      = ⟨st, [Ev.warnNoTransition sk mk, Ev.warnDebug mk st.value], none⟩ ∧
    hookEvs (doSends d (fuel + 1) [(mid, pl)] st).tr = [] ∧
    ((doSends d (fuel + 1) [(mid, pl)] st).tr.countP isNoTransitionWarn) = 1 := by
  have h1 : doSends d (fuel + 1) [(mid, pl)] st
      = ⟨st, [Ev.warnNoTransition sk mk, Ev.warnDebug mk st.value], none⟩ := by
    simp only [doSends, sendPure, hsk, he, hmk, hh, hw, orElseO, List.append_nil]
  rw [h1]
  refine ⟨rfl, rfl, rfl⟩

/-- Witness for C4 on the video player sitting in idle: the stop message has
no handler there and no wildcard exists. -/
theorem c4_unhandled_message_witness :
    doSends dVideo 1 [(2, 0)] ⟨VP.idle, none⟩
      = ⟨⟨VP.idle, none⟩, [Ev.warnNoTransition "idle" "stop",
          Ev.warnDebug "stop" VP.idle], none⟩ ∧
    hookEvs (doSends dVideo 1 [(2, 0)] ⟨VP.idle, none⟩).tr = [] ∧
    ((doSends dVideo 1 [(2, 0)] ⟨VP.idle, none⟩).tr.countP isNoTransitionWarn) = 1 :=
  c4_unhandled_message dVideo 0 2 0 ⟨VP.idle, none⟩ "idle" "stop" _ rfl rfl rfl rfl rfl

/-- C5: a send whose transition returns a value accepted by no registered
state predicate raises the unresolved-state fatal error to its caller, and
at that moment the value was never committed, the hook set is unchanged and
no lifecycle callback fired. -/
theorem c5_unresolved_transition {V P : Type} (d : Desc V P) (fuel mid : Nat)
    (pl : P) (st : MState V) (sk mk : String) (e : BehaviorEntry V P)
    (t : V → P → V)
    (hsk : findStateKey d.states st.value = some sk)
    (he : lookupA d.behaviors sk = some e)
    (hmk : reverseMessageMap d.messages mid = some mk)
    (ht : orElseO (lookupA e.handling mk) (lookupA e.handling "_") = some t)
    (hnew : findStateKey d.states (t st.value pl) = none) :
    doSends d (fuel + 1) [(mid, pl)] st = ⟨st, [], some Err.noMatchingState⟩ := by
  simp only [doSends, sendPure, hsk, he, hmk, ht, findStateBehavior, hnew]

/-- Witness for C5 at the machine whose m1 handler yields the unresolvable
value vb: the send raises and the state is untouched. -/
theorem c5_unresolved_transition_witness :
    doSends dBad 1 [(1, ())] ⟨V3.va, none⟩
      = ⟨⟨V3.va, none⟩, [], some Err.noMatchingState⟩ :=
  c5_unresolved_transition dBad 0 1 () ⟨V3.va, none⟩ "a" "m1" _ _
    rfl rfl rfl rfl rfl

/-- C1 counterexample: the behaviors stage and the FSMDescription
constructor perform no runtime completeness check (their embedding has no
failure path because the source has no throw), so from a behaviors map
covering only 2 of the 3 declared states an Instance is created with no
error of any kind, contradicting that a ConfigurationError is raised before
any Instance can be produced. -/
theorem c1_counterexample :
    (mkInstance dIncomplete 1 VP.idle).err = none ∧
    (mkInstance dIncomplete 1 VP.idle).st.value = VP.idle ∧
    (mkInstance dIncomplete 1 VP.idle).st.hooks = none := by
  decide

/-- C1 amended: behavior-table completeness is enforced only by the host
type system, never at runtime; an incomplete map constructs a Description
and creates Instances without error, and the missing entry surfaces as the
unresolved-state fatal error at the first dispatch that reaches the
uncovered state, while a fully covering map constructs and dispatches
without error. -/
theorem c1_no_runtime_coverage_check :
    (mkInstance dIncomplete 10 VP.idle).err = none ∧
    doSends dIncomplete 10 [(1, 0)] (mkInstance dIncomplete 10 VP.idle).st
      = ⟨⟨VP.idle, none⟩, [], some Err.noMatchingState⟩ ∧
    (mkInstance dVideo 10 VP.idle).err = none ∧
    (runMachine dVideo 10 VP.idle [(1, 0)]).err = none := by
  decide

/-- C2 counterexample: on the nested-send machine, m1 moves a to b, b's
onEnter synchronously sends m2 which commits the b to c transition and
installs c's hook set (no onUpdate, onExit); yet after the outer send
returns, the instance's hook set is the record returned by the interrupted
onEnter of b (onUpdate, no onExit, owner 2), not the nested transition's
install (owner 3) - while the value is the nested transition's vc. -/
theorem c2_counterexample :
    (runMachine dNest 5 V3.va [(1, ())]).st.hooks = some ⟨2, true, false⟩ ∧
    (runMachine dNest 5 V3.va [(1, ())]).st.hooks ≠ some ⟨3, false, true⟩ ∧
    (runMachine dNest 5 V3.va [(1, ())]).st.value = V3.vc ∧
    (runMachine dNest 5 V3.va [(1, ())]).err = none := by
  decide

/-- C2 amended: when a send commits a residency change into an entry whose
onEnter performs nested sends, the value observed after the outer send is
the one of the latest (nested) committed transition, but the hook set is
the one the interrupted onEnter returned: the outer frame stores it after
the nested sends complete, overwriting whatever hook set they installed. -/
theorem c2_nested_hooks_overwritten {V P : Type} (d : Desc V P)
    (fuel mid : Nat) (pl : P) (st : MState V) (sk sk2 mk : String)
    (eOld eNew : BehaviorEntry V P) (t : V → P → V) (bodyF : V → OnEnterBody P)
    (hsk : findStateKey d.states st.value = some sk)
    (hbo : lookupA d.behaviors sk = some eOld)
    (hmk : reverseMessageMap d.messages mid = some mk)
    (ht : orElseO (lookupA eOld.handling mk) (lookupA eOld.handling "_") = some t)
    (hsk2 : findStateKey d.states (t st.value pl) = some sk2)
    (hbn : lookupA d.behaviors sk2 = some eNew)
    (hne : (eNew.id == eOld.id) = false)
    (hoe : eNew.onEnter = some bodyF)
    (hrn : (doSends d fuel (bodyF (t st.value pl)).nestedSends
             ⟨t st.value pl, st.hooks⟩).err = none) :
    (doSends d (fuel + 1) [(mid, pl)] st).st.hooks
      = some (mkHooksInst eNew.id (bodyF (t st.value pl)).ret) ∧
    (doSends d (fuel + 1) [(mid, pl)] st).st.value
      = (doSends d fuel (bodyF (t st.value pl)).nestedSends
          ⟨t st.value pl, st.hooks⟩).st.value ∧
    (doSends d (fuel + 1) [(mid, pl)] st).err = none := by
  have hstep : sendPure d (doSends d fuel) mid pl st
      = ⟨⟨(doSends d fuel (bodyF (t st.value pl)).nestedSends
            ⟨t st.value pl, st.hooks⟩).st.value,
          some (mkHooksInst eNew.id (bodyF (t st.value pl)).ret)⟩,
         Ev.commit (t st.value pl) ::
           (match st.hooks with
            | some h => if h.onExit then [Ev.exitHook h.owner st.value] else []
            | none => []) ++
           Ev.enter eNew.id (t st.value pl) ::
           (doSends d fuel (bodyF (t st.value pl)).nestedSends
             ⟨t st.value pl, st.hooks⟩).tr, none⟩ := by
    simp only [sendPure, hsk, hbo, hmk, ht, findStateBehavior, hsk2, hbn, hne,
      Bool.false_eq_true, if_false, hoe, hrn]
  simp only [doSends, hstep, List.append_nil]
  exact ⟨trivial, trivial, trivial⟩

/-- Witness for C2 amended at the nested-send machine: the outer send's
final hook set is b's returned record, its value is the nested result vc. -/
theorem c2_nested_hooks_overwritten_witness :
    (doSends dNest 3 [(1, ())] ⟨V3.va, none⟩).st.hooks
      = some (mkHooksInst 2 (some ⟨true, false⟩)) ∧
    (doSends dNest 3 [(1, ())] ⟨V3.va, none⟩).st.value
      = (doSends dNest 2 [(2, ())] ⟨V3.vb, none⟩).st.value ∧
    (doSends dNest 3 [(1, ())] ⟨V3.va, none⟩).err = none :=
  c2_nested_hooks_overwritten dNest 2 1 () ⟨V3.va, none⟩ "a" "b" "m1" _ _ _ _
    rfl rfl rfl rfl rfl rfl rfl rfl rfl

theorem obsFollowers_tag_mem {cb : Nat} {l : List Nat} {p : Nat × Nat}
    (h : p ∈ obsFollowers cb l) : p.2 ∈ l := by
  induction l generalizing cb with
  | nil => cases h
  | cons t rest ih =>
    rcases List.mem_cons.mp h with rfl | h2
    · exact List.mem_cons_self _ _
    · exact List.mem_cons_of_mem _ (ih h2)

/-- C8: every value an observable Instance pushes - its initial value at
create() and every value committed while dispatching its own sends - is
delivered exclusively to the followers of that Instance's private
InternalObserver, which is freshly allocated inside create(); a listener
that is not among those followers (in particular one subscribed through a
different Instance created from the same Description) receives none of
them. -/
theorem c8_observable_isolation {V P : Type} (d : Desc V P) (fuel : Nat)
    (hookSubs : List Nat) (v0 : V) (msgs : List (Nat × P)) (L : Nat) (v : V)
    (hL : L ∉ hookSubs) :
    (L, v) ∉ (obsRun d fuel hookSubs v0 msgs).2.1 := by
  intro hmem
  rw [obsRun] at hmem
  rcases List.mem_append.mp hmem with h1 | h2
  · rw [observerNext] at h1
    rcases List.mem_map.mp h1 with ⟨f, hf, hfe⟩
    exact hL (by simpa [← (Prod.mk.injEq _ _ _ _).mp hfe |>.1] using obsFollowers_tag_mem hf)
  · rcases List.mem_flatMap.mp h2 with ⟨w, _, hw2⟩
    rw [observerNext] at hw2
    rcases List.mem_map.mp hw2 with ⟨f, hf, hfe⟩
    exact hL (by simpa [← (Prod.mk.injEq _ _ _ _).mp hfe |>.1] using obsFollowers_tag_mem hf)

/-- Witness for C8 on the observable video player: the listener with tag 7,
subscribed on a different instance, receives no delivery from an instance
whose own observable hook subscribed the tag 5, across create and a send. -/
theorem c8_observable_isolation_witness :
    (7, VP.playing 0) ∉ (obsRun dVideo 10 [5] VP.idle [(1, 0)]).2.1 :=
  c8_observable_isolation dVideo 10 [5] VP.idle [(1, 0)] 7 (VP.playing 0)
    (by decide)

theorem commitsOf_append {V : Type} (l1 l2 : List (Ev V)) :
    commitsOf (l1 ++ l2) = commitsOf l1 ++ commitsOf l2 := by
  simp [commitsOf]

theorem hookEvs_append {V : Type} (l1 l2 : List (Ev V)) :
    hookEvs (l1 ++ l2) = hookEvs l1 ++ hookEvs l2 := by
  simp [hookEvs]

theorem rDoSends_nil {V P : Type} (d : RDesc V P) (fuel : Nat) (st : RMState V P) :
    rDoSends d fuel [] st = ⟨st, [], none⟩ := by
  cases fuel <;> rfl

theorem rMkHooksInst_owner {V P : Type} (eid : Nat) (r : Option (RHooksSpec V P)) :
    (rMkHooksInst eid r).owner = eid := by
  cases r <;> rfl

theorem orElseO_eq_some {α : Type} {a b : Option α} {t : α}
    (h : orElseO a b = some t) : a = some t ∨ b = some t := by
  cases a with
  | some x =>
    left
    simpa [orElseO] using h
  | none =>
    right
    simpa [orElseO] using h

theorem instNoSends_rMkHooksInst {V P : Type} (eid : Nat)
    {ret : Option (RHooksSpec V P)} (h : cbNoSends ret) :
    instNoSends (rMkHooksInst eid ret) := by
  cases ret with
  | none => exact ⟨(by intro cb hcb; cases hcb), (by intro cb hcb; cases hcb)⟩
  | some s => exact ⟨fun cb hcb => h.1 cb hcb, fun cb hcb => h.2 cb hcb⟩

theorem rSendPure_residency {V P : Type} {d : RDesc V P} (hnn : RNoNest d)
    (fuel mid : Nat) (pl : P) {st : RMState V P} {r : RunSt V}
    (hInv : RResInv d st r)
    (hok : (rSendPure d (rDoSends d fuel) mid pl st).err = none) :
    (commitsOf (rSendPure d (rDoSends d fuel) mid pl st).tr = [] ∧
     hookEvs (rSendPure d (rDoSends d fuel) mid pl st).tr = [] ∧
     (rSendPure d (rDoSends d fuel) mid pl st).st = st) ∨
    (∃ w, commitsOf (rSendPure d (rDoSends d fuel) mid pl st).tr = [w] ∧
      hookEvs (rSendPure d (rDoSends d fuel) mid pl st).tr = (rResidencyStep d r w).2 ∧
      RResInv d (rSendPure d (rDoSends d fuel) mid pl st).st (rResidencyStep d r w).1) := by
  obtain ⟨sv, sh⟩ := st
  obtain ⟨rv, reid, ru, rx⟩ := r
  obtain ⟨hv, ⟨e0, he0, heid⟩, hf, ho, hn⟩ := hInv
  replace hv : sv = rv := hv
  subst hv
  replace heid : e0.id = reid := heid
  subst heid
  replace hf : rHookFlags sh = (ru, rx) := hf
  replace ho : ∀ h : RHooksInst V P, sh = some h → h.owner = e0.id := ho
  replace hn : ∀ h : RHooksInst V P, sh = some h → instNoSends h := hn
  rw [rFindStateBehavior] at he0
  cases hfk : findStateKey d.states sv with
  | none => rw [hfk] at he0; cases he0
  | some k =>
  rw [hfk] at he0
  replace he0 : lookupA d.behaviors k = some e0 := he0
  cases hmk : reverseMessageMap d.messages mid with
  | none => simp [rSendPure, hfk, he0, hmk] at hok
  | some mk =>
  cases hh : orElseO (lookupA e0.handling mk) (lookupA e0.handling "_") with
  | none =>
    left
    simp [rSendPure, hfk, he0, hmk, hh, commitsOf, hookEvs, isHookEv]
  | some t =>
  have hts : (t sv pl).sends = [] := by
    have hm0 := (hnn (k, e0) (lookupA_mem he0)).2.1
    rcases orElseO_eq_some hh with h1 | h1
    · exact hm0 (mk, t) (lookupA_mem h1) sv pl
    · exact hm0 ("_", t) (lookupA_mem h1) sv pl
  cases hw : rFindStateBehavior d (t sv pl).result with
  | none => simp [rSendPure, hfk, he0, hmk, hh, hts, rDoSends_nil, hw] at hok
  | some eNew =>
  right
  refine ⟨(t sv pl).result, ?_⟩
  have hmemN : ∃ k2, (k2, eNew) ∈ d.behaviors := by
    rw [rFindStateBehavior] at hw
    cases hfk2 : findStateKey d.states (t sv pl).result with
    | none => rw [hfk2] at hw; cases hw
    | some k2 =>
      rw [hfk2] at hw
      exact ⟨k2, lookupA_mem hw⟩
  obtain ⟨k2, hm2⟩ := hmemN
  have hnb : ∀ bf : V → ROnEnterBody V P, eNew.onEnter = some bf →
      (bf (t sv pl).result).nestedSends = [] := by
    intro bf hbf
    have h3 := (hnn (k2, eNew) hm2).1 (t sv pl).result
    rwa [rEntryBody, hbf] at h3
  have hcb : ∀ bf : V → ROnEnterBody V P, eNew.onEnter = some bf →
      cbNoSends (bf (t sv pl).result).ret := by
    intro bf hbf
    have h3 := (hnn (k2, eNew) hm2).2.2 (t sv pl).result
    rwa [rEntryBody, hbf] at h3
  by_cases hsame : eNew.id = e0.id
  · -- residency continues: same behavior entry by identity
    have hbeq : (eNew.id == e0.id) = true := by simpa using hsame
    have hcanon : rResidencyStep d ⟨sv, e0.id, ru, rx⟩ (t sv pl).result
        = (⟨(t sv pl).result, e0.id, ru, rx⟩,
           if ru then [Ev.update e0.id sv (t sv pl).result] else []) := by
      simp [rResidencyStep, hw, hbeq]
    rw [hcanon]
    cases sh with
    | none =>
      have h1 : false = ru := congrArg Prod.fst hf
      have h2 : false = rx := congrArg Prod.snd hf
      subst h1
      subst h2
      have himpl : rSendPure d (rDoSends d fuel) mid pl ⟨sv, none⟩
          = ⟨⟨(t sv pl).result, none⟩, [Ev.commit (t sv pl).result], none⟩ := by
        simp [rSendPure, hfk, he0, hmk, hh, hts, rDoSends_nil, hw, hbeq]
      rw [himpl]
      refine ⟨by simp [commitsOf], by simp [hookEvs, isHookEv], ?_⟩
      exact ⟨rfl, ⟨eNew, hw, hsame⟩, rfl, (by intro h2 hcon; cases hcon),
        (by intro h2 hcon; cases hcon)⟩
    | some h =>
      have h1 : h.onUpdate.isSome = ru := congrArg Prod.fst hf
      have h2 : h.onExit.isSome = rx := congrArg Prod.snd hf
      subst h1
      subst h2
      have how : h.owner = e0.id := ho h rfl
      have hni : instNoSends h := hn h rfl
      cases hub : h.onUpdate with
      | some cb =>
        have hcs : cb sv (t sv pl).result = [] := hni.1 cb hub sv (t sv pl).result
        have himpl : rSendPure d (rDoSends d fuel) mid pl ⟨sv, some h⟩
            = ⟨⟨(t sv pl).result, some h⟩,
               [Ev.commit (t sv pl).result,
                Ev.update h.owner sv (t sv pl).result], none⟩ := by
          simp [rSendPure, hfk, he0, hmk, hh, hts, rDoSends_nil, hw, hbeq, hub, hcs]
        rw [himpl]
        refine ⟨by simp [commitsOf], by simp [hookEvs, isHookEv, how], ?_⟩
        exact ⟨rfl, ⟨eNew, hw, hsame⟩, (by simp [rHookFlags, hub]),
          (by intro h2 hcon; cases hcon; exact how),
          (by intro h2 hcon; cases hcon; exact hni)⟩
      | none =>
        have himpl : rSendPure d (rDoSends d fuel) mid pl ⟨sv, some h⟩
            = ⟨⟨(t sv pl).result, some h⟩, [Ev.commit (t sv pl).result], none⟩ := by
          simp [rSendPure, hfk, he0, hmk, hh, hts, rDoSends_nil, hw, hbeq, hub]
        rw [himpl]
        refine ⟨by simp [commitsOf], by simp [hookEvs, isHookEv], ?_⟩
        exact ⟨rfl, ⟨eNew, hw, hsame⟩, (by simp [rHookFlags, hub]),
          (by intro h2 hcon; cases hcon; exact how),
          (by intro h2 hcon; cases hcon; exact hni)⟩
  · -- residency changes: a different behavior entry is resolved
    have hbeq : (eNew.id == e0.id) = false := by simpa using hsame
    have hcanon : rResidencyStep d ⟨sv, e0.id, ru, rx⟩ (t sv pl).result
        = (⟨(t sv pl).result, eNew.id, (rEntryFlags eNew (t sv pl).result).1,
            (rEntryFlags eNew (t sv pl).result).2⟩,
           (if rx then [Ev.exitHook e0.id sv] else []) ++
           (if eNew.onEnter.isSome then [Ev.enter eNew.id (t sv pl).result] else [])) := by
      simp [rResidencyStep, hw, hbeq]
    rw [hcanon]
    cases hoe : eNew.onEnter with
    | none =>
      have hflags : rEntryFlags eNew (t sv pl).result = (false, false) := by
        simp [rEntryFlags, rEntryBody, hoe]
      rw [hflags]
      cases sh with
      | none =>
        have h1 : false = ru := congrArg Prod.fst hf
        have h2 : false = rx := congrArg Prod.snd hf
        subst h1
        subst h2
        have himpl : rSendPure d (rDoSends d fuel) mid pl ⟨sv, none⟩
            = ⟨⟨(t sv pl).result, none⟩, [Ev.commit (t sv pl).result], none⟩ := by
          simp [rSendPure, hfk, he0, hmk, hh, hts, rDoSends_nil, hw, hbeq,
            rEnterPhase, hoe]
        rw [himpl]
        refine ⟨by simp [commitsOf], by simp [hookEvs, isHookEv, hoe], ?_⟩
        exact ⟨rfl, ⟨eNew, hw, rfl⟩, rfl, (by intro h2 hcon; cases hcon),
          (by intro h2 hcon; cases hcon)⟩
      | some h =>
        have h1 : h.onUpdate.isSome = ru := congrArg Prod.fst hf
        have h2 : h.onExit.isSome = rx := congrArg Prod.snd hf
        subst h1
        subst h2
        have how : h.owner = e0.id := ho h rfl
        have hni : instNoSends h := hn h rfl
        cases hxb : h.onExit with
        | some cb =>
          have hcx : cb sv = [] := hni.2 cb hxb sv
          have himpl : rSendPure d (rDoSends d fuel) mid pl ⟨sv, some h⟩
              = ⟨⟨(t sv pl).result, none⟩,
                 [Ev.commit (t sv pl).result, Ev.exitHook h.owner sv], none⟩ := by
            simp [rSendPure, hfk, he0, hmk, hh, hts, rDoSends_nil, hw, hbeq,
              rEnterPhase, hoe, hxb, hcx]
          rw [himpl]
          refine ⟨by simp [commitsOf], by simp [hookEvs, isHookEv, hoe, hxb, how], ?_⟩
          exact ⟨rfl, ⟨eNew, hw, rfl⟩, rfl, (by intro h2 hcon; cases hcon),
            (by intro h2 hcon; cases hcon)⟩
        | none =>
          have himpl : rSendPure d (rDoSends d fuel) mid pl ⟨sv, some h⟩
              = ⟨⟨(t sv pl).result, none⟩, [Ev.commit (t sv pl).result], none⟩ := by
            simp [rSendPure, hfk, he0, hmk, hh, hts, rDoSends_nil, hw, hbeq,
              rEnterPhase, hoe, hxb]
          rw [himpl]
          refine ⟨by simp [commitsOf], by simp [hookEvs, isHookEv, hoe, hxb], ?_⟩
          exact ⟨rfl, ⟨eNew, hw, rfl⟩, rfl, (by intro h2 hcon; cases hcon),
            (by intro h2 hcon; cases hcon)⟩
    | some bodyF =>
      have hnb2 : (bodyF (t sv pl).result).nestedSends = [] := hnb bodyF hoe
      have hcb2 : cbNoSends (bodyF (t sv pl).result).ret := hcb bodyF hoe
      have hfl : rHookFlags (some (rMkHooksInst eNew.id (bodyF (t sv pl).result).ret))
          = ((rEntryFlags eNew (t sv pl).result).1,
             (rEntryFlags eNew (t sv pl).result).2) := by
        cases hbr : (bodyF (t sv pl).result).ret with
        | none => simp [rHookFlags, rMkHooksInst, rEntryFlags, rEntryBody, hoe, hbr]
        | some s => simp [rHookFlags, rMkHooksInst, rEntryFlags, rEntryBody, hoe, hbr]
      cases sh with
      | none =>
        have h1 : false = ru := congrArg Prod.fst hf
        have h2 : false = rx := congrArg Prod.snd hf
        subst h1
        subst h2
        have himpl : rSendPure d (rDoSends d fuel) mid pl ⟨sv, none⟩
            = ⟨⟨(t sv pl).result,
                some (rMkHooksInst eNew.id (bodyF (t sv pl).result).ret)⟩,
               [Ev.commit (t sv pl).result, Ev.enter eNew.id (t sv pl).result],
               none⟩ := by
          simp [rSendPure, hfk, he0, hmk, hh, hts, rDoSends_nil, hw, hbeq,
            rEnterPhase, hoe, hnb2]
        rw [himpl]
        refine ⟨by simp [commitsOf], by simp [hookEvs, isHookEv, hoe], ?_⟩
        exact ⟨rfl, ⟨eNew, hw, rfl⟩, hfl,
          (by intro h2 hcon; cases hcon; exact rMkHooksInst_owner _ _),
          (by intro h2 hcon; cases hcon; exact instNoSends_rMkHooksInst _ hcb2)⟩
      | some h =>
        have h1 : h.onUpdate.isSome = ru := congrArg Prod.fst hf
        have h2 : h.onExit.isSome = rx := congrArg Prod.snd hf
        subst h1
        subst h2
        have how : h.owner = e0.id := ho h rfl
        have hni : instNoSends h := hn h rfl
        cases hxb : h.onExit with
        | some cb =>
          have hcx : cb sv = [] := hni.2 cb hxb sv
          have himpl : rSendPure d (rDoSends d fuel) mid pl ⟨sv, some h⟩
              = ⟨⟨(t sv pl).result,
                  some (rMkHooksInst eNew.id (bodyF (t sv pl).result).ret)⟩,
                 [Ev.commit (t sv pl).result, Ev.exitHook h.owner sv,
                  Ev.enter eNew.id (t sv pl).result], none⟩ := by
            simp [rSendPure, hfk, he0, hmk, hh, hts, rDoSends_nil, hw, hbeq,
              rEnterPhase, hoe, hnb2, hxb, hcx]
          rw [himpl]
          refine ⟨by simp [commitsOf], by simp [hookEvs, isHookEv, hoe, hxb, how], ?_⟩
          exact ⟨rfl, ⟨eNew, hw, rfl⟩, hfl,
            (by intro h2 hcon; cases hcon; exact rMkHooksInst_owner _ _),
            (by intro h2 hcon; cases hcon; exact instNoSends_rMkHooksInst _ hcb2)⟩
        | none =>
          have himpl : rSendPure d (rDoSends d fuel) mid pl ⟨sv, some h⟩
              = ⟨⟨(t sv pl).result,
                  some (rMkHooksInst eNew.id (bodyF (t sv pl).result).ret)⟩,
                 [Ev.commit (t sv pl).result, Ev.enter eNew.id (t sv pl).result],
                 none⟩ := by
            simp [rSendPure, hfk, he0, hmk, hh, hts, rDoSends_nil, hw, hbeq,
              rEnterPhase, hoe, hnb2, hxb]
          rw [himpl]
          refine ⟨by simp [commitsOf], by simp [hookEvs, isHookEv, hoe, hxb], ?_⟩
          exact ⟨rfl, ⟨eNew, hw, rfl⟩, hfl,
            (by intro h2 hcon; cases hcon; exact rMkHooksInst_owner _ _),
            (by intro h2 hcon; cases hcon; exact instNoSends_rMkHooksInst _ hcb2)⟩

theorem rMkInstance_residency {V P : Type} {d : RDesc V P} (hnn : RNoNest d)
    (fuel : Nat) (v0 : V) (e0 : RBehaviorEntry V P)
    (h0 : rFindStateBehavior d v0 = some e0) :
    (rMkInstance d fuel v0).err = none ∧
    commitsOf (rMkInstance d fuel v0).tr = [] ∧
    hookEvs (rMkInstance d fuel v0).tr
      = (if e0.onEnter.isSome then [Ev.enter e0.id v0] else []) ∧
    RResInv d (rMkInstance d fuel v0).st
      ⟨v0, e0.id, (rEntryFlags e0 v0).1, (rEntryFlags e0 v0).2⟩ := by
  have hmem : ∃ k, (k, e0) ∈ d.behaviors := by
    rw [rFindStateBehavior] at h0
    cases hfk : findStateKey d.states v0 with
    | none => rw [hfk] at h0; cases h0
    | some k => rw [hfk] at h0; exact ⟨k, lookupA_mem h0⟩
  obtain ⟨k, hk⟩ := hmem
  cases hoe : e0.onEnter with
  | none =>
    have himpl : rMkInstance d fuel v0 = ⟨⟨v0, none⟩, [], none⟩ := by
      simp [rMkInstance, h0, hoe]
    rw [himpl]
    have hflags : rEntryFlags e0 v0 = (false, false) := by
      simp [rEntryFlags, rEntryBody, hoe]
    rw [hflags]
    exact ⟨rfl, by simp [commitsOf], by simp [hookEvs, hoe], rfl, ⟨e0, h0, rfl⟩, rfl,
      (by intro h2 hcon; cases hcon), (by intro h2 hcon; cases hcon)⟩
  | some bodyF =>
    have hnb : (bodyF v0).nestedSends = [] := by
      have hm := (hnn (k, e0) hk).1 v0
      rwa [rEntryBody, hoe] at hm
    have himpl : rMkInstance d fuel v0
        = ⟨⟨v0, ((bodyF v0).ret.map fun s => ⟨e0.id, s.onUpdate, s.onExit⟩)⟩,
           [Ev.enter e0.id v0], none⟩ := by
      simp [rMkInstance, h0, hoe, hnb, rDoSends_nil]
    rw [himpl]
    refine ⟨rfl, by simp [commitsOf], by simp [hookEvs, isHookEv, hoe], rfl,
      ⟨e0, h0, rfl⟩, ?_, ?_, ?_⟩
    · cases hbr : (bodyF v0).ret with
      | none => simp [rHookFlags, rEntryFlags, rEntryBody, hoe, hbr]
      | some s => simp [rHookFlags, rEntryFlags, rEntryBody, hoe, hbr]
    · intro h2 hcon
      cases hbr : (bodyF v0).ret with
      | none => rw [hbr] at hcon; cases hcon
      | some s => rw [hbr] at hcon; cases hcon; rfl
    · intro h2 hcon
      have hcb : cbNoSends (rEntryBody e0 v0).ret := (hnn (k, e0) hk).2.2 v0
      rw [rEntryBody, hoe] at hcb
      cases hbr : (bodyF v0).ret with
      | none => rw [hbr] at hcon; cases hcon
      | some s =>
        rw [hbr] at hcon
        cases hcon
        rw [hbr] at hcb
        exact ⟨fun cb hcb2 => hcb.1 cb hcb2, fun cb hcb2 => hcb.2 cb hcb2⟩

theorem rDoSends_residency {V P : Type} {d : RDesc V P} (hnn : RNoNest d) :
    ∀ (fuel : Nat) (msgs : List (Nat × P)) (st : RMState V P) (r : RunSt V),
      RResInv d st r →
      (rDoSends d fuel msgs st).err = none →
      hookEvs (rDoSends d fuel msgs st).tr
        = (rResidencyFold d r (commitsOf (rDoSends d fuel msgs st).tr)).2 ∧
      RResInv d (rDoSends d fuel msgs st).st
        (rResidencyFold d r (commitsOf (rDoSends d fuel msgs st).tr)).1 := by
  intro fuel
  induction fuel with
  | zero =>
    intro msgs st r hInv hok
    cases msgs with
    | nil =>
      rw [rDoSends_nil]
      exact ⟨by simp [commitsOf, hookEvs, rResidencyFold], by
        simpa [commitsOf, rResidencyFold] using hInv⟩
    | cons m rest => simp [rDoSends] at hok
  | succ fuel ih =>
    intro msgs st r hInv hok
    cases msgs with
    | nil =>
      rw [rDoSends_nil]
      exact ⟨by simp [commitsOf, hookEvs, rResidencyFold], by
        simpa [commitsOf, rResidencyFold] using hInv⟩
    | cons m rest =>
      obtain ⟨mid, pl⟩ := m
      cases hr1 : (rSendPure d (rDoSends d fuel) mid pl st).err with
      | some e =>
        rw [show (rDoSends d (fuel + 1) ((mid, pl) :: rest) st).err = some e by
          simp only [rDoSends, hr1]] at hok
        cases hok
      | none =>
        have hds : rDoSends d (fuel + 1) ((mid, pl) :: rest) st
            = ⟨(rDoSends d fuel rest (rSendPure d (rDoSends d fuel) mid pl st).st).st,
               (rSendPure d (rDoSends d fuel) mid pl st).tr ++
                 (rDoSends d fuel rest
                   (rSendPure d (rDoSends d fuel) mid pl st).st).tr,
               (rDoSends d fuel rest
                 (rSendPure d (rDoSends d fuel) mid pl st).st).err⟩ := by
          simp only [rDoSends, hr1]
        rw [hds] at hok ⊢
        replace hok : (rDoSends d fuel rest
            (rSendPure d (rDoSends d fuel) mid pl st).st).err = none := hok
        rcases rSendPure_residency hnn fuel mid pl hInv hr1 with
          ⟨hc0, hh0, hst0⟩ | ⟨w, hc1, hh1, hInv2⟩
        · rw [hst0] at hok ⊢
          obtain ⟨ihh, ihInv⟩ := ih rest st r hInv hok
          rw [commitsOf_append, hookEvs_append, hc0, hh0, List.nil_append,
            List.nil_append]
          exact ⟨ihh, ihInv⟩
        · obtain ⟨ihh, ihInv⟩ :=
            ih rest (rSendPure d (rDoSends d fuel) mid pl st).st
              (rResidencyStep d r w).1 hInv2 hok
          rw [commitsOf_append, hookEvs_append, hc1, hh1]
          have hfold : rResidencyFold d r
              (w :: commitsOf (rDoSends d fuel rest
                (rSendPure d (rDoSends d fuel) mid pl st).st).tr)
              = ((rResidencyFold d (rResidencyStep d r w).1
                    (commitsOf (rDoSends d fuel rest
                      (rSendPure d (rDoSends d fuel) mid pl st).st).tr)).1,
                 (rResidencyStep d r w).2 ++
                   (rResidencyFold d (rResidencyStep d r w).1
                     (commitsOf (rDoSends d fuel rest
                       (rSendPure d (rDoSends d fuel) mid pl st).st).tr)).2) := by
            rw [rResidencyFold]
          rw [List.cons_append, List.nil_append, hfold]
          exact ⟨by rw [ihh], ihInv⟩

/-- C3 amended: for machines in which nothing sends re-entrantly - no
onEnter body performs nested sends, no transition handler sends through
self, and no onUpdate or onExit callback installed by an onEnter sends -
the lifecycle events of any error-free run (construction plus any sequence
of top-level sends) are exactly the residency discipline computed from the
committed value sequence alone: onEnter fires exactly once per maximal
contiguous run of commits resolving to the same behavior entry by reference
identity, including the run begun by the initial value at construction;
onUpdate fires on every commit within a run after the first when the run's
hook set declares it; onExit fires exactly once when a run ends, strictly
before the next onEnter; a commit landing on the same entry by identity
never fires onEnter. -/
theorem c3_residency_amended {V P : Type} (d : RDesc V P) (fuel : Nat) (v0 : V)
    (msgs : List (Nat × P)) (hnn : RNoNest d)
    (e0 : RBehaviorEntry V P)
    (h0 : rFindStateBehavior d v0 = some e0)
    (hok : (rRunMachine d fuel v0 msgs).err = none) :
    hookEvs (rRunMachine d fuel v0 msgs).tr
      = rResidencyTrace d v0 (commitsOf (rRunMachine d fuel v0 msgs).tr) := by
  obtain ⟨hcerr, hccom, hchook, hcInv⟩ := rMkInstance_residency hnn fuel v0 e0 h0
  have hrm : rRunMachine d fuel v0 msgs
      = ⟨(rDoSends d fuel msgs (rMkInstance d fuel v0).st).st,
         (rMkInstance d fuel v0).tr ++
           (rDoSends d fuel msgs (rMkInstance d fuel v0).st).tr,
         (rDoSends d fuel msgs (rMkInstance d fuel v0).st).err⟩ := by
    simp only [rRunMachine, hcerr]
  rw [hrm] at hok ⊢
  replace hok : (rDoSends d fuel msgs (rMkInstance d fuel v0).st).err = none := hok
  obtain ⟨hh, _⟩ := rDoSends_residency hnn fuel msgs (rMkInstance d fuel v0).st
    ⟨v0, e0.id, (rEntryFlags e0 v0).1, (rEntryFlags e0 v0).2⟩ hcInv hok
  rw [commitsOf_append, hookEvs_append, hccom, List.nil_append, hchook, hh,
    rResidencyTrace, h0]

/-- Witness: the hooked video player, which sends nowhere re-entrantly, run
through play, seek and pause satisfies the amended residency discipline. -/
theorem c3_residency_amended_witness :
    hookEvs (rRunMachine dVideoHooksR 10 VP.idle [(1, 0), (4, 1), (3, 0)]).tr
      = rResidencyTrace dVideoHooksR VP.idle
          (commitsOf (rRunMachine dVideoHooksR 10 VP.idle
            [(1, 0), (4, 1), (3, 0)]).tr) :=
  c3_residency_amended dVideoHooksR 10 VP.idle [(1, 0), (4, 1), (3, 0)]
    (by
      intro p hp
      simp [dVideoHooksR] at hp
      rcases hp with rfl | rfl | rfl
      · exact ⟨fun v => rfl,
          (by intro s hs v pl; simp at hs; rcases hs with rfl; rfl),
          fun v => trivial⟩
      · exact ⟨fun v => rfl,
          (by intro s hs v pl; simp at hs; rcases hs with rfl; rfl),
          fun v => trivial⟩
      · exact ⟨fun v => rfl,
          (by intro s hs v pl; simp at hs; rcases hs with rfl | rfl <;> rfl),
          fun v => ⟨(by intro cb hcb a b; cases hcb; rfl),
                    (by intro cb hcb a; cases hcb; rfl)⟩⟩)
    _ rfl (by decide)

/-- C3 counterexample: re-entrant sends break the per-run lifecycle count,
and nesting inside onEnter is not the only way.  (a) dResR: b's onEnter
nested-sends while a's stale hook set is current, so a's onExit fires twice
and b's onExit never fires although both runs end.  (b) dResExitR: no
onEnter anywhere performs a nested send - the send comes from a's installed
onExit callback - and a's onExit still fires twice.  (c) dResTransR: the m1
transition handler of a sends before committing, and onEnter of b fires
twice although every commit lands on b's entry, so one maximal run gets two
onEnter events.  In each run the implementation's lifecycle trace differs
from the residency discipline computed from the commit sequence, with no
error raised. -/
theorem c3_counterexample :
    (((rRunMachine dResR 10 V3.va [(1, ())]).tr.countP (isExitOf 1)) = 2 ∧
     ((rRunMachine dResR 10 V3.va [(1, ())]).tr.countP (isExitOf 2)) = 0 ∧
     commitsOf (rRunMachine dResR 10 V3.va [(1, ())]).tr = [V3.vb, V3.vc] ∧
     hookEvs (rRunMachine dResR 10 V3.va [(1, ())]).tr
       ≠ rResidencyTrace dResR V3.va
           (commitsOf (rRunMachine dResR 10 V3.va [(1, ())]).tr) ∧
     (rRunMachine dResR 10 V3.va [(1, ())]).err = none) ∧
    (((rRunMachine dResExitR 10 V3.va [(1, ())]).tr.countP (isExitOf 1)) = 2 ∧
     commitsOf (rRunMachine dResExitR 10 V3.va [(1, ())]).tr = [V3.vb, V3.vc] ∧
     hookEvs (rRunMachine dResExitR 10 V3.va [(1, ())]).tr
       ≠ rResidencyTrace dResExitR V3.va
           (commitsOf (rRunMachine dResExitR 10 V3.va [(1, ())]).tr) ∧
     (rRunMachine dResExitR 10 V3.va [(1, ())]).err = none) ∧
    (hookEvs (rRunMachine dResTransR 10 V3.va [(1, ())]).tr
       = [Ev.enter 2 V3.vb, Ev.enter 2 V3.vb] ∧
     commitsOf (rRunMachine dResTransR 10 V3.va [(1, ())]).tr = [V3.vb, V3.vb] ∧
     rResidencyTrace dResTransR V3.va
         (commitsOf (rRunMachine dResTransR 10 V3.va [(1, ())]).tr)
       = [Ev.enter 2 V3.vb] ∧
     (rRunMachine dResTransR 10 V3.va [(1, ())]).err = none) := by
  decide

end TypedFSM
